import Mathlib

/-!
Verification of the news-sentiment dashboard pipeline in src/app.py.

The program is a linear pandas pipeline: load at most 200 rows from a
backend table (ORDER BY publishedAt DESC LIMIT 200), derive date and hour
fields, decode the topics column, filter to a trailing 7-day window,
compute five group-by aggregates, and render a sorted, paginated table.

Shallow embedding choices:
- timestamps are epoch seconds (Nat); the derived calendar date of the
  main pipeline is an integer day number (Int), so that `today - 7`
  behaves like Python date arithmetic with no truncation;
- pandas `value_counts` and `groupby(...).size()` both produce one
  (key, count) row per distinct key; they are modelled by `countsTable`,
  which maps the deduplicated key list to counts (row order of the
  aggregate tables is irrelevant to every claim, which only concern
  sums and lookups of counts);
- exceptions (empty-frame `.iloc[0]`, `.strftime` on NaN, `eval` applied
  to a non-string) are modelled by `Option`, with `none` for a raised
  error.
-/

namespace NewsDash

/-- One row of the loaded dataframe `df` of the main pipeline
(src/app.py line 33 onwards): an article observation with the derived
fields `date` and `hour` computed at load time. -/
structure Record where
  publishedAt : Nat
  title : String
  text : String
  sentiment : String
  topics : List String
  source : String
  url : String
  date : Int
  hour : Nat
deriving DecidableEq, Repr

/-- Model of pandas `value_counts` / `groupby(keys).size()`: one
(key, count) row per distinct key of the key list. -/
def countsTable {K : Type} [DecidableEq K] (keys : List K) : List (K × Nat) :=
  keys.dedup.map fun k => (k, keys.count k)

/-- Sum of the count column of an aggregate table. -/
def tableTotal {K : Type} (t : List (K × Nat)) : Nat :=
  (t.map Prod.snd).sum

/-- Count recorded by an aggregate table for one key (0 if absent). -/
def tableCount {K : Type} [DecidableEq K] (t : List (K × Nat)) (k : K) : Nat :=
  tableTotal (t.filter fun e => e.1 == k)

/-- `sentiment_counts` (src/app.py line 43): records per sentiment label. -/
def sentiment_counts (rs : List Record) : List (String × Nat) :=
  countsTable (rs.map Record.sentiment)

lemma sum_map_dedup {K : Type} [DecidableEq K] (l : List K) (f : K → Nat) :
    (l.dedup.map f).sum = ∑ a ∈ l.toFinset, f a := by
  rw [Finset.sum]
  rfl

lemma sum_count_dedup {K : Type} [DecidableEq K] (l : List K) :
    (l.dedup.map fun k => l.count k).sum = l.length := by
  rw [sum_map_dedup]
  simpa using Multiset.toFinset_sum_count_eq (l : Multiset K)

lemma dedup_filter_perm {K : Type} [DecidableEq K] (l : List K) (p : K → Bool) :
    (l.dedup.filter p).Perm (l.filter p).dedup := by
  apply List.perm_of_nodup_nodup_toFinset_eq
  · exact (l.nodup_dedup).filter p
  · exact List.nodup_dedup _
  · ext a
    simp [List.mem_toFinset, List.mem_dedup, List.mem_filter, Finset.mem_filter,
      List.toFinset_filter]

/-- Summing the counts of the table rows whose key satisfies `p` gives
the number of key-list entries satisfying `p`. -/
lemma tableTotal_countsTable_filter {K : Type} [DecidableEq K]
    (l : List K) (p : K → Bool) :
    tableTotal ((countsTable l).filter fun e => p e.1) = l.countP p := by
  unfold tableTotal countsTable
  rw [List.filter_map, List.map_map]
  have hpred : ((fun (e : K × Nat) => p e.1) ∘ fun k => (k, l.count k)) = p := rfl
  rw [hpred]
  have hmapf : (Prod.snd ∘ fun k => (k, l.count k)) = fun k => l.count k := rfl
  rw [hmapf]
  have hperm := (dedup_filter_perm l p).map fun k => l.count k
  rw [hperm.sum_eq]
  have hcong : ((l.filter p).dedup.map fun k => l.count k)
      = (l.filter p).dedup.map fun k => (l.filter p).count k := by
    apply List.map_congr_left
    intro a ha
    have hpa : p a = true := by
      have := List.mem_dedup.mp ha
      exact (List.mem_filter.mp this).2
    exact (List.count_filter hpa).symm
  rw [hcong, sum_count_dedup, List.countP_eq_length_filter]

lemma tableCount_countsTable {K : Type} [DecidableEq K] (l : List K) (k : K) :
    tableCount (countsTable l) k = l.count k := by
  unfold tableCount
  exact tableTotal_countsTable_filter l fun x => x == k

lemma tableTotal_countsTable {K : Type} [DecidableEq K] (l : List K) :
    tableTotal (countsTable l) = l.length := by
  unfold tableTotal countsTable
  rw [List.map_map]
  exact sum_count_dedup l

/-- Claim C2: for every filtered record set, the per-sentiment counts of
the sentiment distribution sum to the number of records. -/
theorem sentiment_counts_total (rs : List Record) :
    tableTotal (sentiment_counts rs) = rs.length := by
  unfold sentiment_counts
  rw [tableTotal_countsTable, List.length_map]

/-- `last_7_days` (src/app.py line 36): the lower bound of the trailing
window, seven days before the `today` computed at filter time. -/
def last_7_days (today : Int) : Int :=
  today - 7

/-- The filter stage (src/app.py line 37): `df = df[df["date"] >= last_7_days]`. -/
def filterStage (today : Int) (rs : List Record) : List Record :=
  rs.filter fun r => last_7_days today ≤ r.date

/-- A record dated one day after `today = 0`; the backend imposes no
upper bound on `publishedAt`, so such a row can be loaded. -/
def futureRec : Record :=
  { publishedAt := 90000, title := "t", text := "x", sentiment := "positive",
    topics := ["ai"], source := "s", url := "https://a", date := 1, hour := 1 }

/-- Claim C1 (counterexample): the filter comparison is only a lower
bound, so a record dated after `today` survives filtering; its date is
not within `[today - 7, today]`. -/
theorem future_record_survives_filter :
    futureRec ∈ filterStage 0 [futureRec] ∧ ¬ (futureRec.date ≤ (0 : Int)) := by
  constructor
  · simp [filterStage, last_7_days, futureRec]
  · decide

/-- Claim C1 (amended): a record survives the filter stage exactly when
it is in the input and its date is at least `today - 7`; the code
enforces no upper bound at `today`. -/
theorem filterStage_mem_iff (today : Int) (r : Record) (rs : List Record) :
    r ∈ filterStage today rs ↔ r ∈ rs ∧ last_7_days today ≤ r.date := by
  simp [filterStage, List.mem_filter]

/-- Witness for `filterStage_mem_iff` at a concrete record. -/
theorem filterStage_mem_iff_witness :
    futureRec ∈ filterStage 0 [futureRec] :=
  (filterStage_mem_iff 0 futureRec [futureRec]).mpr
    ⟨List.mem_singleton.mpr rfl, by decide⟩

/-- `sentiment_trend` (src/app.py line 58): records per (date, sentiment)
pair. -/
def sentiment_trend (rs : List Record) : List ((Int × String) × Nat) :=
  countsTable (rs.map fun r => (r.date, r.sentiment))

/-- Claim C4: for any date, the daily-trend counts of that date, summed
over all sentiment labels, equal the number of filtered records with
that date (for a date not present, both sides are zero). -/
theorem sentiment_trend_day_total (rs : List Record) (d : Int) :
    tableTotal ((sentiment_trend rs).filter fun e => e.1.1 == d)
      = rs.countP fun r => r.date == d := by
  unfold sentiment_trend
  have h := tableTotal_countsTable_filter
    (rs.map fun r => (r.date, r.sentiment)) (fun k => k.1 == d)
  rw [h, List.countP_map]
  rfl

/-- `topic_counts` (src/app.py line 67): the topics column is exploded
(one row per (record, topic) pair; a record with an empty topic list
contributes no row) and the exploded values are counted per topic. -/
def topic_counts (rs : List Record) : List (String × Nat) :=
  countsTable (rs.map Record.topics).flatten

/-- Total number of (record, topic) pairs of the record set. -/
def totalTopicPairs (rs : List Record) : Nat :=
  (rs.map fun r => r.topics.length).sum

/-- A record with an empty topic list. -/
def emptyTopicsRec : Record :=
  { publishedAt := 1000, title := "t", text := "word", sentiment := "positive",
    topics := [], source := "s", url := "https://b", date := 0, hour := 0 }

/-- Claim C3 (counterexample): for a set containing a record with an
empty topic list, the topic counts sum to strictly less than the number
of records, refuting the claimed lower bound. -/
theorem topic_counts_total_lt_records :
    ¬ (([emptyTopicsRec] : List Record).length
        ≤ tableTotal (topic_counts [emptyTopicsRec])) := by
  decide

/-- Claim C3 (amended): the topic counts sum to exactly the total number
of (record, topic) pairs; this is at least the number of records when
every record carries at least one topic (a record with an empty topic
list contributes no pair, so the unconditional lower bound fails). -/
theorem topic_counts_total_eq_pairs (rs : List Record) :
    tableTotal (topic_counts rs) = totalTopicPairs rs ∧
    ((∀ r ∈ rs, r.topics ≠ []) → rs.length ≤ tableTotal (topic_counts rs)) := by
  have htot : tableTotal (topic_counts rs) = totalTopicPairs rs := by
    unfold topic_counts totalTopicPairs
    rw [tableTotal_countsTable, List.length_flatten, List.map_map]
    rfl
  refine ⟨htot, fun hne => ?_⟩
  rw [htot]
  unfold totalTopicPairs
  calc rs.length = (rs.map fun _ => 1).sum := by
        simp [List.map_const]
    _ ≤ (rs.map fun r => r.topics.length).sum := by
        apply List.sum_le_sum
        intro r hr
        have : r.topics ≠ [] := hne r hr
        exact Nat.one_le_iff_ne_zero.mpr (by simpa using this)

/-- Witness for `topic_counts_total_eq_pairs` at a concrete record set
whose records all carry a topic. -/
theorem topic_counts_total_eq_pairs_witness :
    tableTotal (topic_counts [futureRec]) = totalTopicPairs [futureRec] ∧
    ([futureRec] : List Record).length ≤ tableTotal (topic_counts [futureRec]) := by
  have h := topic_counts_total_eq_pairs [futureRec]
  exact ⟨h.1, h.2 (by decide)⟩

/-- Claim C8: a record with an empty topic list changes no topic count,
yet raises the sentiment-distribution count of its own sentiment label
by exactly one. -/
theorem empty_topics_contribution (rs : List Record) (r : Record)
    (h : r.topics = []) :
    topic_counts (r :: rs) = topic_counts rs ∧
    tableCount (sentiment_counts (r :: rs)) r.sentiment
      = tableCount (sentiment_counts rs) r.sentiment + 1 := by
  constructor
  · unfold topic_counts
    simp [h]
  · unfold sentiment_counts
    rw [tableCount_countsTable, tableCount_countsTable]
    simp [List.count_cons]

/-- Witness for `empty_topics_contribution` at a concrete record. -/
theorem empty_topics_contribution_witness :
    topic_counts [emptyTopicsRec] = topic_counts [] ∧
    tableCount (sentiment_counts [emptyTopicsRec]) emptyTopicsRec.sentiment
      = tableCount (sentiment_counts []) emptyTopicsRec.sentiment + 1 :=
  empty_topics_contribution [] emptyTopicsRec rfl

/-- A rendered table row (src/app.py lines 71-72 and 105-121): the title
column is rewritten to a markdown link, the topic list is comma-joined,
and the columns source/title/topics/sentiment/publishedAt are kept. -/
structure DisplayRow where
  source : String
  title : String
  topicsDisplay : String
  sentiment : String
  publishedAt : Nat
deriving DecidableEq, Repr

/-- Column transforms of src/app.py lines 71-72 plus the column selection
of line 115. -/
def toDisplayRow (r : Record) : DisplayRow :=
  { source := r.source,
    title := "[" ++ r.title ++ "](" ++ r.url ++ ")",
    topicsDisplay := String.intercalate ", " r.topics,
    sentiment := r.sentiment,
    publishedAt := r.publishedAt }

/-- Descending comparison on the published timestamp
(`sort_values("publishedAt", ascending=False)`). -/
def pubDescLe (a b : DisplayRow) : Bool :=
  decide (b.publishedAt ≤ a.publishedAt)

/-- `df_sorted` (src/app.py line 73): the display rows sorted by
published timestamp, most recent first. -/
def df_sorted (rs : List Record) : List DisplayRow :=
  (rs.map toDisplayRow).mergeSort pubDescLe

/-- `page_size=10` of the DataTable (src/app.py line 119). -/
def tablePageSize : Nat := 10

/-- Claim C5: the rendered table holds exactly one row per filtered
record (the sorted rows are a permutation of the per-record display
rows, so in particular the row count equals the record count), the rows
are ordered by published timestamp descending, and the page size is 10. -/
theorem table_rows_spec (rs : List Record) :
    (df_sorted rs).Perm (rs.map toDisplayRow) ∧
    (df_sorted rs).length = rs.length ∧
    List.Pairwise (fun a b : DisplayRow => b.publishedAt ≤ a.publishedAt)
      (df_sorted rs) ∧
    tablePageSize = 10 := by
  refine ⟨List.mergeSort_perm _ _, ?_, ?_, rfl⟩
  · unfold df_sorted
    rw [List.length_mergeSort, List.length_map]
  · have htrans : ∀ a b c : DisplayRow, pubDescLe a b = true →
        pubDescLe b c = true → pubDescLe a c = true := by
      intro a b c hab hbc
      simp only [pubDescLe, decide_eq_true_eq] at hab hbc ⊢
      exact le_trans hbc hab
    have htotal : ∀ a b : DisplayRow, (pubDescLe a b || pubDescLe b a) = true := by
      intro a b
      simp only [pubDescLe, Bool.or_eq_true, decide_eq_true_eq]
      exact Nat.le_total b.publishedAt a.publishedAt
    have h := List.sorted_mergeSort htrans htotal (rs.map toDisplayRow)
    exact h.imp fun hab => of_decide_eq_true hab

instance intLeAntisymm : Std.Antisymm (fun a b : Int => a ≤ b) :=
  ⟨fun h h2 => le_antisymm h h2⟩

lemma int_min?_eq_some_iff {xs : List Int} {a : Int} :
    xs.min? = some a ↔ a ∈ xs ∧ ∀ b ∈ xs, a ≤ b :=
  List.min?_eq_some_iff (fun _ => le_refl _) (fun x y => min_choice x y)
    (fun _ _ _ => le_min_iff)

lemma int_max?_eq_some_iff {xs : List Int} {a : Int} :
    xs.max? = some a ↔ a ∈ xs ∧ ∀ b ∈ xs, b ≤ a :=
  List.max?_eq_some_iff (fun _ => le_refl _) (fun x y => max_choice x y)
    (fun _ _ _ => max_le_iff)

/-- The date column of the filtered frame. -/
def dates (rs : List Record) : List Int :=
  rs.map Record.date

/-- `date_from` (src/app.py line 39): `df["date"].min()`, which is NaN on
an empty frame — modelled as `none`, on which the `.strftime` call
raises. -/
def date_from (rs : List Record) : Option Int :=
  (dates rs).min?

/-- `date_to` (src/app.py line 40): `df["date"].max()`. -/
def date_to (rs : List Record) : Option Int :=
  (dates rs).max?

/-- The date-range caption of the page header (src/app.py lines 39-40
and 95): both bounds must format successfully. -/
def dateRangeCaption (rs : List Record) : Option (Int × Int) :=
  match date_from rs, date_to rs with
  | some lo, some hi => some (lo, hi)
  | _, _ => none

/-- Claim C7: on an empty filtered set the caption computation fails
(`none`, the unguarded `.strftime` on NaN); on any non-empty filtered
set it succeeds and yields the minimum and maximum retained dates. -/
theorem dateRangeCaption_spec (rs : List Record) (h : rs ≠ []) :
    dateRangeCaption [] = none ∧
    ∃ lo hi, dateRangeCaption rs = some (lo, hi) ∧
      lo ∈ dates rs ∧ hi ∈ dates rs ∧
      ∀ r ∈ rs, lo ≤ r.date ∧ r.date ≤ hi := by
  refine ⟨rfl, ?_⟩
  cases rs with
  | nil => exact absurd rfl h
  | cons r t =>
    have hd : dates (r :: t) = r.date :: dates t := rfl
    obtain ⟨lo, hlo⟩ : ∃ lo, (dates (r :: t)).min? = some lo := by
      rw [hd]
      exact ⟨_, List.min?_cons⟩
    obtain ⟨hi, hhi⟩ : ∃ hi, (dates (r :: t)).max? = some hi := by
      rw [hd]
      exact ⟨_, List.max?_cons⟩
    have hlo2 := int_min?_eq_some_iff.mp hlo
    have hhi2 := int_max?_eq_some_iff.mp hhi
    refine ⟨lo, hi, ?_, hlo2.1, hhi2.1, ?_⟩
    · unfold dateRangeCaption date_from date_to
      rw [hlo, hhi]
    · intro x hx
      have hxd : x.date ∈ dates (r :: t) := List.mem_map_of_mem Record.date hx
      exact ⟨hlo2.2 x.date hxd, hhi2.2 x.date hxd⟩

/-- Witness for `dateRangeCaption_spec` at a concrete one-record set. -/
theorem dateRangeCaption_spec_witness :
    dateRangeCaption [] = none ∧
    ∃ lo hi, dateRangeCaption [emptyTopicsRec] = some (lo, hi) ∧
      lo ∈ dates [emptyTopicsRec] ∧ hi ∈ dates [emptyTopicsRec] ∧
      ∀ r ∈ [emptyTopicsRec], lo ≤ r.date ∧ r.date ≤ hi :=
  dateRangeCaption_spec [emptyTopicsRec] (by simp)

/-- `source_sentiment` (src/app.py line 61): records per
(source, sentiment) pair. -/
def source_sentiment (rs : List Record) : List ((String × String) × Nat) :=
  countsTable (rs.map fun r => (r.source, r.sentiment))

/-- `hourly_sentiment` (src/app.py line 64): records per
(hour, sentiment) pair. -/
def hourly_sentiment (rs : List Record) : List ((Nat × String) × Nat) :=
  countsTable (rs.map fun r => (r.hour, r.sentiment))

/-- The word-cloud corpus (src/app.py line 47): `" ".join(df["text"])`. -/
def corpus (rs : List Record) : String :=
  String.intercalate " " (rs.map Record.text)

/-- The state of the aggregation stage: the filtered record set together
with the aggregate tables and the corpus it produces. -/
structure AggState where
  records : List Record
  sentRows : List (String × Nat)
  trendRows : List ((Int × String) × Nat)
  sourceRows : List ((String × String) × Nat)
  hourRows : List ((Nat × String) × Nat)
  topicRows : List (String × Nat)
  corpusText : String
deriving DecidableEq, Repr

/-- The aggregation stage (src/app.py lines 43-69): computes the five
aggregate tables and the corpus from the filtered record set. -/
def aggregationStage (s : AggState) : AggState :=
  { records := s.records,
    sentRows := sentiment_counts s.records,
    trendRows := sentiment_trend s.records,
    sourceRows := source_sentiment s.records,
    hourRows := hourly_sentiment s.records,
    topicRows := topic_counts s.records,
    corpusText := corpus s.records }

/-- Claim C9: the aggregation stage is pure — it leaves the filtered
record set unchanged, and its whole result (all five aggregate tables
and the corpus) depends only on the filtered record set. -/
theorem aggregationStage_pure (s t : AggState) (h : s.records = t.records) :
    (aggregationStage s).records = s.records ∧
    aggregationStage s = aggregationStage t := by
  constructor
  · rfl
  · unfold aggregationStage
    rw [h]

/-- Witness for `aggregationStage_pure` at two concrete states sharing
the record set but differing in every other field. -/
theorem aggregationStage_pure_witness :
    (aggregationStage
        { records := [futureRec], sentRows := [("stale", 5)], trendRows := [],
          sourceRows := [], hourRows := [], topicRows := [],
          corpusText := "stale" }).records = [futureRec] ∧
    aggregationStage
        { records := [futureRec], sentRows := [("stale", 5)], trendRows := [],
          sourceRows := [], hourRows := [], topicRows := [],
          corpusText := "stale" }
      = aggregationStage
        { records := [futureRec], sentRows := [], trendRows := [],
          sourceRows := [], hourRows := [], topicRows := [],
          corpusText := "" } :=
  aggregationStage_pure _ _ rfl

/-- Value held by the `topics` column of a raw backend row: either still
serialized (a Python `str`) or already a list of strings. -/
inductive TopVal where
  | str (s : String)
  | list (ls : List String)
deriving DecidableEq, Repr

/-- The `isinstance(.., str)` check of src/app.py line 29. -/
def TopVal.isStr : TopVal → Bool
  | .str _ => true
  | .list _ => false

/-- One raw row of the backend table, before the loader derives fields.
The timestamp is epoch seconds. -/
structure RawRow where
  publishedAt : Nat
  title : String
  sentiment : String
  topics : TopVal
  text : String
  source : String
  url : String
deriving DecidableEq, Repr

/-- One row returned by the loader: the raw columns plus the derived
`date` (day number) and `hour` fields of src/app.py lines 27-28. -/
structure LoadedRecord where
  publishedAt : Nat
  title : String
  sentiment : String
  topics : TopVal
  text : String
  source : String
  url : String
  date : Nat
  hour : Nat
deriving DecidableEq, Repr

/-- Day number of an epoch-seconds timestamp (`.dt.date`). -/
def dateOf (ts : Nat) : Nat :=
  ts / 86400

/-- Hour of day of an epoch-seconds timestamp (`.dt.hour`). -/
def hourOf (ts : Nat) : Nat :=
  ts % 86400 / 3600

/-- Descending comparison on raw rows (`ORDER BY publishedAt DESC`). -/
def rawDescLe (a b : RawRow) : Bool :=
  decide (b.publishedAt ≤ a.publishedAt)

/-- The query result (src/app.py lines 19-25): the backend table ordered
by published timestamp descending, limited to 200 rows. -/
def queryRows (table : List RawRow) : List RawRow :=
  (table.mergeSort rawDescLe).take 200

/-- Build a loaded record from a raw row and a topics value, deriving
`date` and `hour` from the timestamp (src/app.py lines 26-28). -/
def mkLoaded (r : RawRow) (tv : TopVal) : LoadedRecord :=
  { publishedAt := r.publishedAt, title := r.title, sentiment := r.sentiment,
    topics := tv, text := r.text, source := r.source, url := r.url,
    date := dateOf r.publishedAt, hour := hourOf r.publishedAt }

/-- A row on the decode path: `eval` turns the serialized string into a
list (src/app.py line 30); `evalT` stands for the external `eval`. -/
def decodeRow (evalT : String → List String) (r : RawRow) : LoadedRecord :=
  mkLoaded r (match r.topics with
    | .str s => .list (evalT s)
    | .list ls => .list ls)

/-- A row outside the decode path: the topics value is kept as is. -/
def keepRow (r : RawRow) : LoadedRecord :=
  mkLoaded r r.topics

/-- The topics-decode step (src/app.py lines 29-30).  An empty frame
makes `.iloc[0]` raise (`none`).  When the first value is a string,
`apply(eval)` runs over every row and raises if some row holds a
non-string (`none`); otherwise the column is left untouched. -/
def decodeStage (evalT : String → List String) :
    List RawRow → Option (List LoadedRecord)
  | [] => none
  | r0 :: rest =>
    if r0.topics.isStr then
      if (r0 :: rest).all (fun r => r.topics.isStr) then
        some ((r0 :: rest).map (decodeRow evalT))
      else none
    else
      some ((r0 :: rest).map keepRow)

/-- `load_sentiment_data` (src/app.py lines 17-31): query, derive, and
decode. -/
def load_sentiment_data (evalT : String → List String)
    (table : List RawRow) : Option (List LoadedRecord) :=
  decodeStage evalT (queryRows table)

lemma decodeStage_shape (evalT : String → List String) (rows : List RawRow)
    (rs : List LoadedRecord) (h : decodeStage evalT rows = some rs) :
    ∃ g : RawRow → LoadedRecord,
      (∀ x, (g x).publishedAt = x.publishedAt ∧
        (g x).date = dateOf x.publishedAt ∧ (g x).hour = hourOf x.publishedAt) ∧
      rs = rows.map g := by
  cases rows with
  | nil => exact absurd h (by simp [decodeStage])
  | cons r0 rest =>
    simp only [decodeStage] at h
    by_cases h0 : r0.topics.isStr
    · rw [if_pos h0] at h
      by_cases hall : (r0 :: rest).all fun r => r.topics.isStr
      · rw [if_pos hall] at h
        exact ⟨decodeRow evalT, fun x => ⟨rfl, rfl, rfl⟩,
          (Option.some_injective _ h).symm⟩
      · rw [if_neg hall] at h
        exact absurd h (by simp)
    · rw [if_neg h0] at h
      exact ⟨keepRow, fun x => ⟨rfl, rfl, rfl⟩, (Option.some_injective _ h).symm⟩

/-- Claim C6: whenever the loader succeeds, it returns at most 200
records, ordered by published timestamp descending, and every record
carries the derived fields computed at load time: `date` is the day of
its timestamp and `hour` its hour of day (in particular below 24). -/
theorem load_sentiment_data_spec (evalT : String → List String)
    (table : List RawRow) (rs : List LoadedRecord)
    (h : load_sentiment_data evalT table = some rs) :
    rs.length ≤ 200 ∧
    List.Pairwise (fun a b : LoadedRecord => b.publishedAt ≤ a.publishedAt) rs ∧
    ∀ r ∈ rs, r.date = dateOf r.publishedAt ∧ r.hour = hourOf r.publishedAt ∧
      r.hour < 24 := by
  obtain ⟨g, hg, hrs⟩ := decodeStage_shape evalT (queryRows table) rs h
  subst hrs
  refine ⟨?_, ?_, ?_⟩
  · rw [List.length_map]
    exact le_trans (List.length_take_le 200 _) (le_refl _)
  · have htrans : ∀ a b c : RawRow, rawDescLe a b = true →
        rawDescLe b c = true → rawDescLe a c = true := by
      intro a b c hab hbc
      simp only [rawDescLe, decide_eq_true_eq] at hab hbc ⊢
      exact le_trans hbc hab
    have htotal : ∀ a b : RawRow, (rawDescLe a b || rawDescLe b a) = true := by
      intro a b
      simp only [rawDescLe, Bool.or_eq_true, decide_eq_true_eq]
      exact Nat.le_total b.publishedAt a.publishedAt
    have hsorted := List.sorted_mergeSort htrans htotal table
    have hsorted2 : List.Pairwise (fun a b : RawRow => rawDescLe a b = true)
        (queryRows table) :=
      hsorted.sublist (List.take_sublist 200 _)
    rw [List.pairwise_map]
    refine hsorted2.imp ?_
    intro a b hab
    have hab2 := of_decide_eq_true hab
    rw [(hg a).1, (hg b).1]
    exact hab2
  · intro r hr
    obtain ⟨x, _, hx⟩ := List.mem_map.mp hr
    subst hx
    rw [(hg x).1]
    refine ⟨(hg x).2.1, (hg x).2.2, ?_⟩
    rw [(hg x).2.2]
    unfold hourOf
    omega

/-- A concrete raw row whose topics column already holds a list. -/
def rawListRow : RawRow :=
  { publishedAt := 172800, title := "a", sentiment := "neutral",
    topics := .list ["ai"], text := "w", source := "s", url := "https://c" }

/-- Witness for `load_sentiment_data_spec` at a concrete one-row table. -/
theorem load_sentiment_data_spec_witness :
    ([keepRow rawListRow] : List LoadedRecord).length ≤ 200 ∧
    List.Pairwise (fun a b : LoadedRecord => b.publishedAt ≤ a.publishedAt)
      [keepRow rawListRow] ∧
    ∀ r ∈ [keepRow rawListRow], r.date = dateOf r.publishedAt ∧
      r.hour = hourOf r.publishedAt ∧ r.hour < 24 :=
  load_sentiment_data_spec (fun _ => []) [rawListRow] [keepRow rawListRow]
    (by simp [load_sentiment_data, queryRows, decodeStage, rawListRow,
      TopVal.isStr])

/-- Claim C10: the decode is driven solely by the first returned row —
an empty query result makes the loader fail outright (the unguarded
`.iloc[0]`); when the first topics value is a string, a successful load
has decoded every row (and every row indeed held a string); when it is
not a string, no row is decoded and every topics value is kept as is. -/
theorem topics_decode_spec (evalT : String → List String) (table : List RawRow) :
    (queryRows table = [] → load_sentiment_data evalT table = none) ∧
    (∀ rs, load_sentiment_data evalT table = some rs →
      ∀ r0 rest, queryRows table = r0 :: rest →
        (r0.topics.isStr = true →
          rs = (r0 :: rest).map (decodeRow evalT) ∧
          ∀ r ∈ r0 :: rest, r.topics.isStr = true) ∧
        (r0.topics.isStr = false →
          rs = (r0 :: rest).map keepRow)) := by
  constructor
  · intro hq
    unfold load_sentiment_data
    rw [hq]
    rfl
  · intro rs h r0 rest hq
    unfold load_sentiment_data at h
    rw [hq] at h
    simp only [decodeStage] at h
    constructor
    · intro h0
      rw [if_pos h0] at h
      by_cases hall : (r0 :: rest).all fun r => r.topics.isStr
      · rw [if_pos hall] at h
        refine ⟨(Option.some_injective _ h).symm, ?_⟩
        intro r hr
        exact List.all_eq_true.mp hall r hr
      · rw [if_neg hall] at h
        exact absurd h (by simp)
    · intro h0
      rw [h0] at h
      simp only [Bool.false_eq_true, if_false] at h
      exact (Option.some_injective _ h).symm

/-- A concrete raw row whose topics column holds a serialized string. -/
def rawStrRow : RawRow :=
  { publishedAt := 3600, title := "b", sentiment := "negative",
    topics := .str "[1]", text := "v", source := "s2", url := "https://d" }

/-- Witness for `topics_decode_spec`: a one-row table whose first (only)
row holds a string, so the successful load decodes every row. -/
theorem topics_decode_spec_witness :
    [decodeRow (fun _ => ["ai"]) rawStrRow]
        = [rawStrRow].map (decodeRow fun _ => ["ai"]) ∧
    ∀ r ∈ [rawStrRow], r.topics.isStr = true :=
  ((topics_decode_spec (fun _ => ["ai"]) [rawStrRow]).2
    [decodeRow (fun _ => ["ai"]) rawStrRow]
    (by simp [load_sentiment_data, queryRows, decodeStage, rawStrRow,
      TopVal.isStr])
    rawStrRow []
    (by simp [queryRows])).1 rfl

end NewsDash
